import Mathlib

/-!
Verification of the DocuQuery RAG core: a shallow embedding of the text
chunker (`src/utils/text_chunker.py`), the vector store manager
(`src/utils/vector_store.py`) and the LLM answer/confidence mapper
(`src/utils/llm_handler.py`), with theorems checking the natural-language
specification against the code.

External capabilities (the OpenAI embedding model, the chat model, the
filesystem and the FAISS library internals) are represented as explicit
parameters or, where a claim depends on their behaviour, as definitions
modelled from the specification and marked as such.
-/

namespace DocuQuery

/-- A metadata value as it occurs in this repository's chunk metadata:
either a string (e.g. `filename`) or an integer (e.g. `chunk_index`). -/
inductive Val where
  | str (s : String)
  | nat (n : Nat)
deriving DecidableEq, Repr

/-- Python `dict` with string keys, as an insertion-ordered association list
with no duplicate keys reachable through `dictInsert`. -/
abbrev Metadata := List (String × Val)

/-- Python `d.get(k)` / `d[k]`: value of the first entry with key `k`. -/
def dictGet (d : Metadata) (k : String) : Option Val :=
  match d with
  | [] => none
  | p :: ps => if p.1 = k then some p.2 else dictGet ps k

/-- Whether the dict has an entry with key `k` (Python `k in d`). -/
def dictMember (d : Metadata) (k : String) : Bool :=
  match d with
  | [] => false
  | p :: ps => p.1 = k || dictMember ps k

/-- Python dict insertion `d[k] = v` (also what a later entry in a dict
literal such as `{**base, k: v}` does): replace the value in place if the
key is present, otherwise append the new entry. -/
def dictInsert (d : Metadata) (k : String) (v : Val) : Metadata :=
  if dictMember d k then
    d.map (fun p => if p.1 = k then (k, v) else p)
  else d ++ [(k, v)]

theorem dictGet_map_replace (k : String) (v : Val) :
    ∀ d : Metadata, dictMember d k = true →
      dictGet (d.map (fun p => if p.1 = k then (k, v) else p)) k = some v := by
  intro d
  induction d with
  | nil => intro h; simp [dictMember] at h
  | cons p ps ih =>
    intro h
    by_cases hp : p.1 = k
    · simp [dictGet, hp]
    · simp [dictMember, hp] at h
      simp [dictGet, hp, ih h]

theorem dictGet_append_single (k : String) (v : Val) :
    ∀ d : Metadata, dictMember d k = false →
      dictGet (d ++ [(k, v)]) k = some v := by
  intro d
  induction d with
  | nil => simp [dictGet]
  | cons p ps ih =>
    intro h
    simp [dictMember] at h
    simp [dictGet, h.1, ih h.2]

/-- Looking up the just-inserted key returns the just-inserted value. -/
theorem dictGet_insert_self (d : Metadata) (k : String) (v : Val) :
    dictGet (dictInsert d k v) k = some v := by
  unfold dictInsert
  by_cases h : dictMember d k
  · simp [h, dictGet_map_replace k v d h]
  · simp at h
    simp [h, dictGet_append_single k v d h]

theorem dictGet_map_replace_ne (k k' : String) (v : Val) (hne : k ≠ k') :
    ∀ d : Metadata,
      dictGet (d.map (fun p => if p.1 = k' then (k', v) else p)) k = dictGet d k := by
  have hne' : k' ≠ k := Ne.symm hne
  intro d
  induction d with
  | nil => simp [dictGet]
  | cons p ps ih =>
    by_cases hp : p.1 = k'
    · have hpk : p.1 ≠ k := by rw [hp]; exact hne'
      simp [dictGet, hp, hpk, hne', ih]
    · simp [dictGet, hp, ih]

theorem dictGet_append_single_ne (k k' : String) (v : Val) (hne : k ≠ k') :
    ∀ d : Metadata, dictGet (d ++ [(k', v)]) k = dictGet d k := by
  have hne' : k' ≠ k := Ne.symm hne
  intro d
  induction d with
  | nil => simp [dictGet, hne']
  | cons p ps ih =>
    by_cases hp : p.1 = k
    · simp [dictGet, hp]
    · simp [dictGet, hp, ih]

/-- Inserting under a different key does not change a lookup. -/
theorem dictGet_insert_ne (d : Metadata) (k k' : String) (v : Val) (hne : k ≠ k') :
    dictGet (dictInsert d k' v) k = dictGet d k := by
  unfold dictInsert
  by_cases h : dictMember d k'
  · simp [h, dictGet_map_replace_ne k k' v hne d]
  · simp [h, dictGet_append_single_ne k k' v hne d]

/-- Insertion never removes a key: any key present before is present after. -/
theorem dictGet_insert_isSome (d : Metadata) (k k' : String) (v : Val)
    (h : (dictGet d k).isSome) : (dictGet (dictInsert d k' v) k).isSome := by
  by_cases hk : k = k'
  · subst hk; simp [dictGet_insert_self]
  · rw [dictGet_insert_ne d k k' v hk]; exact h

/-! ## Configuration (`src/config.py`, RAG section) -/

namespace Config

def CHUNK_SIZE : Nat := 1000

def CHUNK_OVERLAP : Nat := 200

def TOP_K_RESULTS : Nat := 3

def VECTOR_STORE_PATH : String := "vector_store"

end Config

/-! ## Text chunker (`src/utils/text_chunker.py`) -/

/-- One chunk as produced by `TextChunker.chunk_text`: a dict with keys
`text` and `metadata`. -/
structure Chunk where
  text : String
  metadata : Metadata
deriving DecidableEq, Repr

/-- Python `str.strip()`: drop whitespace from both ends. -/
def pyStrip (s : String) : String :=
  String.mk (((s.toList.dropWhile Char.isWhitespace).reverse.dropWhile
    Char.isWhitespace).reverse)

/-- The Python guard `not text or not text.strip()`: true for an empty
string or a string that is all whitespace. -/
def blankText (text : String) : Bool :=
  text = "" || pyStrip text = ""

/-- `TextChunker`: chunk parameters plus the splitter built in `__init__`.
The splitter object (LangChain's `RecursiveCharacterTextSplitter`) is
external library code, so it is carried as a function `String → List String`
standing for its `split_text` method. -/
structure TextChunker where
  chunk_size : Nat
  chunk_overlap : Nat
  text_splitter : String → List String

/-- The `for i, chunk in enumerate(chunks)` loop body of `chunk_text`:
each chunk object pairs the chunk string with
`{**base_metadata, 'chunk_index': i, 'chunk_total': total}`. -/
def enumChunks (base : Metadata) (total : Nat) : Nat → List String → List Chunk
  | _, [] => []
  | i, c :: cs =>
    { text := c,
      metadata := dictInsert (dictInsert base "chunk_index" (Val.nat i))
        "chunk_total" (Val.nat total) } :: enumChunks base total (i + 1) cs

/-- `TextChunker.chunk_text`: returns `[]` for blank input, otherwise splits
the text and attaches positional metadata to every chunk. -/
def TextChunker.chunk_text (tc : TextChunker) (text : String)
    (metadata : Option Metadata := none) : List Chunk :=
  if blankText text then []
  else
    let chunks := tc.text_splitter text
    let base_metadata := metadata.getD []
    enumChunks base_metadata chunks.length 0 chunks

/-- `TextChunker.get_chunk_count`: `0` for blank input, otherwise the number
of pieces the splitter produces. -/
def TextChunker.get_chunk_count (tc : TextChunker) (text : String) : Nat :=
  if blankText text then 0 else (tc.text_splitter text).length

/-- Pieces of `text` under one separator: splitting on the empty separator
(the last-resort separator) yields the individual characters. -/
def sepPieces (sep : String) (text : String) : List String :=
  if sep = "" then text.toList.map (fun c => String.mk [c])
  else text.splitOn sep

/-- Whether splitting on `sep` yields only pieces of length at most
`chunkSize`. -/
def sepFits (chunkSize : Nat) (sep : String) (text : String) : Bool :=
  (sepPieces sep text).all (fun p => p.length ≤ chunkSize)

/-- The earliest separator in the precedence list whose pieces all fit. -/
def chooseSeparator (chunkSize : Nat) (text : String) : List String → String
  | [] => ""
  | s :: rest =>
    if sepFits chunkSize s text then s else chooseSeparator chunkSize text rest

/-- The last `n` characters of a string (the overlap copied from the tail of
one chunk into the head of the next). -/
def strTakeRight (n : Nat) (s : String) : String :=
  String.mk (s.toList.drop (s.length - n))

/-- Greedy merge of pieces into chunks of length at most `chunkSize`,
rejoining with the separator and starting each new chunk with the last
`chunkOverlap` characters of the previous one. -/
def mergePieces (chunkSize chunkOverlap : Nat) (sep : String) :
    String → List String → List String
  | buf, [] => if pyStrip buf = "" then [] else [pyStrip buf]
  | buf, p :: ps =>
    let cand := if buf = "" then p else buf ++ sep ++ p
    if cand.length ≤ chunkSize then mergePieces chunkSize chunkOverlap sep cand ps
    else pyStrip buf ::
      mergePieces chunkSize chunkOverlap sep (strTakeRight chunkOverlap buf ++ sep ++ p) ps

/-- Modelled from the spec: LangChain's
`RecursiveCharacterTextSplitter.split_text` is library code not part of this
repository. Per the spec, the splitter recursively splits on the ordered
separator list (paragraph break, line break, period+space, space, hard
character split), prefers the earliest separator whose pieces fit in
`chunk_size`, merges pieces into chunks of at most `chunk_size` characters
with `chunk_overlap` characters of overlap, and for text of length at most
`chunk_size` yields exactly one chunk containing the whole trimmed text. -/
def splitText (chunkSize chunkOverlap : Nat) (text : String) : List String :=
  if text.length ≤ chunkSize then
    if pyStrip text = "" then [] else [pyStrip text]
  else
    let sep := chooseSeparator chunkSize text ["\n\n", "\n", ". ", " ", ""]
    mergePieces chunkSize chunkOverlap sep "" (sepPieces sep text)

/-- `TextChunker.__init__`: `chunk_size or Config.CHUNK_SIZE` (Python `or`
falls back on `None` and on `0`, both falsy), same for the overlap, then the
splitter is built with those parameters. -/
def mkTextChunker (chunk_size chunk_overlap : Option Nat) : TextChunker :=
  let cs := match chunk_size with
    | none => Config.CHUNK_SIZE
    | some n => if n = 0 then Config.CHUNK_SIZE else n
  let co := match chunk_overlap with
    | none => Config.CHUNK_OVERLAP
    | some n => if n = 0 then Config.CHUNK_OVERLAP else n
  { chunk_size := cs, chunk_overlap := co, text_splitter := splitText cs co }

theorem enumChunks_length (base : Metadata) (total : Nat) :
    ∀ (s : Nat) (cs : List String), (enumChunks base total s cs).length = cs.length := by
  intro s cs
  induction cs generalizing s with
  | nil => rfl
  | cons c cs ih => simp [enumChunks, ih]

theorem enumChunks_getElem? (base : Metadata) (total : Nat) :
    ∀ (cs : List String) (s i : Nat),
      (enumChunks base total s cs)[i]? = cs[i]?.map (fun c =>
        { text := c,
          metadata := dictInsert (dictInsert base "chunk_index" (Val.nat (s + i)))
            "chunk_total" (Val.nat total) }) := by
  intro cs
  induction cs with
  | nil => intro s i; simp [enumChunks]
  | cons c cs ih =>
    intro s i
    cases i with
    | zero => simp [enumChunks]
    | succ j =>
      simp only [enumChunks, List.getElem?_cons_succ, ih (s + 1) j]
      have harith : s + 1 + j = s + (j + 1) := by omega
      rw [harith]

/-! ## LLM handler (`src/utils/llm_handler.py`) -/

/-- One retrieved chunk as passed to `generate_answer`: the dicts produced
by `search_similar_documents`, with `text`, `metadata` and (when present)
`similarity_score`; the code reads the score with
`chunk.get("similarity_score", 0.0)`. Scores are rationals standing for the
floating-point distances. -/
structure SearchResult where
  text : String
  metadata : Metadata
  similarity_score : Option ℚ
deriving DecidableEq

/-- One formatted source dict as built by `_format_sources`. -/
structure Source where
  filename : Val
  chunk_index : Val
  text_preview : String
  similarity_score : ℚ
deriving DecidableEq

/-- The dict returned by `generate_answer`. -/
structure GenResult where
  answer : String
  sources : List Source
  confidence : ℚ
deriving DecidableEq

/-- Rendering of a metadata value inside an f-string. -/
def Val.display : Val → String
  | .str s => s
  | .nat n => toString n

/-- `_format_sources`: one source record per chunk, with metadata defaults
`"Unknown"` / `0`, a 200-character preview with `"..."` appended exactly
when the text is longer than 200 characters, and the raw stored score. -/
def _format_sources (chunks : List SearchResult) : List Source :=
  chunks.map (fun c =>
    { filename := (dictGet c.metadata "filename").getD (Val.str "Unknown")
      chunk_index := (dictGet c.metadata "chunk_index").getD (Val.nat 0)
      text_preview :=
        if c.text.length > 200 then c.text.take 200 ++ "..." else c.text
      similarity_score := c.similarity_score.getD 0 })

/-- The numbered-source context string built by `_format_context`. -/
def _format_context_part (i : Nat) (c : SearchResult) : String :=
  let source := ((dictGet c.metadata "filename").getD (Val.str "Unknown")).display
  let sec := (match dictGet c.metadata "chunk_index" with
    | some (Val.nat n) => n
    | _ => 0) + 1
  "[Source " ++ toString (i + 1) ++ ": " ++ source ++ ", Section " ++
    toString sec ++ "]\n" ++ c.text

/-- `_format_context`: the parts for chunks 1..n joined by blank lines. -/
def _format_context (chunks : List SearchResult) : String :=
  String.intercalate "\n\n" ((List.range chunks.length).zipWith
    _format_context_part chunks)

/-- The system prompt with `{context}` filled in by
`self.system_prompt.format(context=context_text)`. -/
def systemPrompt (context : String) : String :=
  "You are a helpful AI assistant that answers questions based on the provided context from documents.\n\nContext from documents:\n" ++ context

/-- `_calculate_confidence`: the if/elif chain over the average distance
(FAISS L2 distance, lower is better). -/
def _calculate_confidence (avg_similarity : ℚ) : ℚ :=
  if avg_similarity < 1/2 then 9/10
  else if avg_similarity < 1 then 7/10
  else if avg_similarity < 3/2 then 1/2
  else 3/10

/-- The average `sum(chunk.get("similarity_score", 0.0) ...) / len(...)`
computed in `generate_answer`. -/
def avgSimilarity (context_chunks : List SearchResult) : ℚ :=
  ((context_chunks.map (fun c => c.similarity_score.getD 0)).sum) /
    (context_chunks.length : ℚ)

/-- The fixed reply for an empty retrieval result. -/
def noDocsResult : GenResult :=
  { answer := "I don't have any relevant documents to answer this question."
    sources := []
    confidence := 0 }

/-- `generate_answer`. The chat model call `self.llm.invoke(messages)` is an
external capability, passed in as `llm` taking the system message and the
human message; `Except.error` stands for the call raising, which the
`try`/`except` turns into an error reply with confidence `0.0`. -/
def generate_answer (llm : String → String → Except String String)
    (query : String) (context_chunks : List SearchResult) : GenResult :=
  if context_chunks.isEmpty then noDocsResult
  else
    match llm (systemPrompt (_format_context context_chunks)) ("Question: " ++ query) with
    | .ok answer =>
      { answer := answer
        sources := _format_sources context_chunks
        confidence := _calculate_confidence (avgSimilarity context_chunks) }
    | .error e =>
      { answer := "Error generating answer: " ++ e
        sources := []
        confidence := 0 }

/-! ## Vector store manager (`src/utils/vector_store.py`) -/

/-- A LangChain `Document`: page content plus metadata. -/
structure Document where
  page_content : String
  metadata : Metadata
deriving DecidableEq

/-- The FAISS store: the inserted documents, in insertion order, each with
the embedding vector computed for its page content. Embedding components
are rationals standing for the floating-point coordinates. -/
structure FAISSStore where
  entries : List (Document × List ℚ)
deriving DecidableEq

/-- `index.ntotal`: the number of vectors held by the FAISS index, which is
the number of documents inserted so far. -/
def FAISSStore.ntotal (s : FAISSStore) : Nat :=
  s.entries.length

/-- `VectorStoreManager`: the embedding capability (external network call,
carried as a function), the optional FAISS store, and the snapshot path. -/
structure VectorStoreManager where
  embeddings : String → List ℚ
  vector_store : Option FAISSStore
  store_path : String

/-- `VectorStoreManager.__init__`: no store yet, path from config. -/
def initVectorStoreManager (embeddings : String → List ℚ) : VectorStoreManager :=
  { embeddings := embeddings
    vector_store := none
    store_path := Config.VECTOR_STORE_PATH }

/-- `create_vector_store`: raises `ValueError` (modelled as `Except.error`)
on an empty chunk list, otherwise builds a fresh store from the chunks and
returns the document count. -/
def create_vector_store (m : VectorStoreManager) (chunks : List Chunk) :
    Except String (Nat × VectorStoreManager) :=
  if chunks.isEmpty then
    Except.error "No chunks provided to create vector store"
  else
    let documents := chunks.map (fun c => Document.mk c.text c.metadata)
    let store : FAISSStore :=
      ⟨documents.map (fun d => (d, m.embeddings d.page_content))⟩
    Except.ok (documents.length, { m with vector_store := some store })

/-- `add_documents_to_store`: `0` and no change for an empty chunk list;
creates the store lazily when none exists; otherwise appends the new
documents and returns how many were added. -/
def add_documents_to_store (m : VectorStoreManager) (chunks : List Chunk) :
    Except String (Nat × VectorStoreManager) :=
  if chunks.isEmpty then Except.ok (0, m)
  else
    let documents := chunks.map (fun c => Document.mk c.text c.metadata)
    match m.vector_store with
    | none => create_vector_store m chunks
    | some store =>
      let newEntries := documents.map (fun d => (d, m.embeddings d.page_content))
      Except.ok (documents.length,
        { m with vector_store := some ⟨store.entries ++ newEntries⟩ })

/-- `get_store_size`: `0` when no store exists, else `index.ntotal`. -/
def get_store_size (m : VectorStoreManager) : Nat :=
  match m.vector_store with
  | none => 0
  | some store => store.ntotal

/-- Squared Euclidean (L2) distance between two vectors. -/
def l2sq (u v : List ℚ) : ℚ :=
  (List.zipWith (fun a b => (a - b) ^ 2) u v).sum

/-- Stable insertion into a list sorted by ascending score: an element moves
ahead only of strictly larger scores, so equal scores keep insertion
order. -/
def insertByScore (x : Document × ℚ) : List (Document × ℚ) → List (Document × ℚ)
  | [] => [x]
  | y :: ys => if x.2 < y.2 then x :: y :: ys else y :: insertByScore x ys

/-- Stable sort by ascending score. -/
def sortByScore : List (Document × ℚ) → List (Document × ℚ)
  | [] => []
  | x :: xs => insertByScore x (sortByScore xs)

/-- Modelled from the spec: FAISS's `similarity_search_with_score` is
library code not part of this repository. Per the spec, search is exact
nearest-neighbor under squared-L2 distance, returns up to `k` results in
ascending distance order with ties broken by insertion order, and returns
the empty sequence on an empty index. -/
def similarity_search_with_score (store : FAISSStore)
    (queryEmbedding : List ℚ) (k : Nat) : List (Document × ℚ) :=
  (sortByScore (store.entries.map (fun e => (e.1, l2sq queryEmbedding e.2)))).take k

/-- `search_similar_documents`: `[]` when no store exists; otherwise
`top_k or Config.TOP_K_RESULTS` results (Python `or` falls back on `None`
and on `0`), formatted as dicts with the raw score. -/
def search_similar_documents (m : VectorStoreManager) (query : String)
    (top_k : Option Nat := none) : List SearchResult :=
  match m.vector_store with
  | none => []
  | some store =>
    let k := match top_k with
      | none => Config.TOP_K_RESULTS
      | some n => if n = 0 then Config.TOP_K_RESULTS else n
    (similarity_search_with_score store (m.embeddings query) k).map (fun ds =>
      { text := ds.1.page_content
        metadata := ds.1.metadata
        similarity_score := some ds.2 })

/-- What the filesystem holds at a path: nothing (`os.path.exists` false), a
snapshot that `FAISS.load_local` fails to deserialize, or a good
snapshot. -/
inductive Snapshot where
  | missing
  | corrupt (msg : String)
  | stored (s : FAISSStore)

/-- `load_vector_store`, with the filesystem and `FAISS.load_local` as an
explicit parameter `fs`: returns `False` when the path does not exist;
catches any deserialization exception, prints it and returns `False`
leaving `self.vector_store` unchanged; on success installs the loaded store
and returns `True`. -/
def load_vector_store (fs : String → Snapshot) (m : VectorStoreManager)
    (filename : String := "faiss_index") : Bool × VectorStoreManager :=
  match fs (m.store_path ++ "/" ++ filename) with
  | .missing => (false, m)
  | .corrupt _ => (false, m)
  | .stored s => (true, { m with vector_store := some s })

/-- The `load` contract as the spec words it (for comparison with
`load_vector_store`): returns `false` if no snapshot exists, fails with
`PersistenceError` for a corrupt/unreadable existing snapshot, restores the
index otherwise. -/
def load_contract (fs : String → Snapshot) (m : VectorStoreManager)
    (filename : String := "faiss_index") :
    Except String (Bool × VectorStoreManager) :=
  match fs (m.store_path ++ "/" ++ filename) with
  | .missing => Except.ok (false, m)
  | .corrupt _ => Except.error "PersistenceError"
  | .stored s => Except.ok (true, { m with vector_store := some s })

/-- Agreement of the code with the spec's `load` contract, reading
`Except.ok` as a normal return and `Except.error` as a raised error: the
code (which always returns normally) matches only the contract's `ok`
outcomes. -/
def loadMatchesContract (fs : String → Snapshot) (m : VectorStoreManager)
    (filename : String) : Prop :=
  load_contract fs m filename = Except.ok (load_vector_store fs m filename)

/-! ## Helper lemmas about the chunker -/

theorem chunk_text_eq (tc : TextChunker) (text : String) (md : Option Metadata) :
    tc.chunk_text text md =
      if blankText text then []
      else enumChunks (md.getD []) (tc.text_splitter text).length 0
        (tc.text_splitter text) := rfl

theorem blankText_eq_false (text : String) (h : pyStrip text ≠ "") :
    blankText text = false := by
  have hne : text ≠ "" := by
    intro he
    subst he
    exact h (by decide)
  simp [blankText, hne, h]

theorem chunk_text_getElem? (tc : TextChunker) (text : String) (md : Option Metadata)
    (i : Nat) :
    (tc.chunk_text text md)[i]? =
      if blankText text then none
      else ((tc.text_splitter text)[i]?).map (fun s =>
        { text := s
          metadata := dictInsert (dictInsert (md.getD []) "chunk_index" (Val.nat i))
            "chunk_total" (Val.nat (tc.text_splitter text).length) }) := by
  rw [chunk_text_eq]
  by_cases h : blankText text
  · simp [h]
  · simp [h, enumChunks_getElem?]

theorem chunk_text_length (tc : TextChunker) (text : String) (md : Option Metadata) :
    (tc.chunk_text text md).length =
      if blankText text then 0 else (tc.text_splitter text).length := by
  rw [chunk_text_eq]
  by_cases h : blankText text
  · simp [h]
  · simp [h, enumChunks_length]

/-! ## Claim theorems for the chunker -/

/-- C3: for every input text that is empty or all-whitespace after
trimming, `chunk_text` returns the empty list (for any chunker
configuration and any metadata argument); being a total function of the
embedding, it raises no error, so the empty result is the sole signal for
blank input. -/
theorem chunk_text_blank (tc : TextChunker) (text : String) (md : Option Metadata)
    (h : pyStrip text = "") :
    tc.chunk_text text md = [] := by
  rw [chunk_text_eq]
  simp [blankText, h]

/-- Witness for C3 at a whitespace-only input. -/
theorem chunk_text_blank_witness :
    (mkTextChunker (some 1000) (some 200)).chunk_text "   " (some []) = [] :=
  chunk_text_blank (mkTextChunker (some 1000) (some 200)) "   " (some []) (by decide)

/-- C9: `get_chunk_count` always agrees with the length of the list
`chunk_text` returns, for every chunker, every input text (including blank
input, where both report zero) and every metadata argument. -/
theorem get_chunk_count_eq_chunk_text_length (tc : TextChunker) (text : String)
    (md : Option Metadata) :
    tc.get_chunk_count text = (tc.chunk_text text md).length := by
  rw [chunk_text_length]
  unfold TextChunker.get_chunk_count
  by_cases h : blankText text
  · simp [h]
  · simp [h]

/-- C4: for a non-blank input, the chunk at position `i` carries metadata
equal to the caller's `base` dict merged (Python dict-literal semantics)
with `chunk_index = i` and `chunk_total = N`, where `N` is the number of
chunks returned, and every key of `base` is still present afterwards. -/
theorem chunk_text_metadata_merge (tc : TextChunker) (text : String) (base : Metadata)
    (i : Nat) (c : Chunk) (hblank : pyStrip text ≠ "")
    (hc : (tc.chunk_text text (some base))[i]? = some c) :
    c.metadata = dictInsert (dictInsert base "chunk_index" (Val.nat i)) "chunk_total"
      (Val.nat (tc.chunk_text text (some base)).length) ∧
    ∀ k, (dictGet base k).isSome → (dictGet c.metadata k).isSome := by
  have hb := blankText_eq_false text hblank
  rw [chunk_text_getElem?, hb, if_neg Bool.false_ne_true] at hc
  rw [chunk_text_length, hb, if_neg Bool.false_ne_true]
  cases hs : (tc.text_splitter text)[i]? with
  | none => rw [hs] at hc; simp at hc
  | some s =>
    rw [hs] at hc
    simp only [Option.map_some', Option.some.injEq] at hc
    subst hc
    refine ⟨rfl, ?_⟩
    intro k hk
    exact dictGet_insert_isSome _ k "chunk_total" _
      (dictGet_insert_isSome _ k "chunk_index" _ hk)

/-- Chunker instance with the repository's default parameters. -/
def tcW : TextChunker := mkTextChunker (some 1000) (some 200)

/-- The single chunk produced from `"Hello world"` with a caller-supplied
`filename` key. -/
def cW : Chunk :=
  { text := "Hello world"
    metadata := [("filename", Val.str "doc.txt"), ("chunk_index", Val.nat 0),
      ("chunk_total", Val.nat 1)] }

/-- Witness for C4: the caller's `filename` key survives the merge. -/
theorem chunk_text_metadata_merge_witness :
    cW.metadata = dictInsert (dictInsert [("filename", Val.str "doc.txt")] "chunk_index"
      (Val.nat 0)) "chunk_total"
      (Val.nat (tcW.chunk_text "Hello world"
        (some [("filename", Val.str "doc.txt")])).length) ∧
    (dictGet cW.metadata "filename").isSome := by
  have h := chunk_text_metadata_merge tcW "Hello world" [("filename", Val.str "doc.txt")]
    0 cW (by decide) (by decide)
  exact ⟨h.1, h.2 "filename" (by decide)⟩

/-- C10: whatever the caller put under the reserved keys, the chunk at
position `i` reports `chunk_index = i` and `chunk_total` equal to the
number of chunks returned: the chunker's positional values win. -/
theorem chunk_text_reserved_keys (tc : TextChunker) (text : String) (base : Metadata)
    (i : Nat) (c : Chunk)
    (hc : (tc.chunk_text text (some base))[i]? = some c) :
    dictGet c.metadata "chunk_index" = some (Val.nat i) ∧
    dictGet c.metadata "chunk_total" =
      some (Val.nat (tc.chunk_text text (some base)).length) := by
  rw [chunk_text_getElem?] at hc
  cases hb : blankText text with
  | true => rw [hb, if_pos rfl] at hc; simp at hc
  | false =>
    rw [hb, if_neg Bool.false_ne_true] at hc
    rw [chunk_text_length, hb, if_neg Bool.false_ne_true]
    cases hs : (tc.text_splitter text)[i]? with
    | none => rw [hs] at hc; simp at hc
    | some s =>
      rw [hs] at hc
      simp only [Option.map_some', Option.some.injEq] at hc
      subst hc
      constructor
      · rw [dictGet_insert_ne _ _ _ _ (by decide), dictGet_insert_self]
      · rw [dictGet_insert_self]

/-- The chunk produced from `"Hello world"` when the caller abuses the
reserved keys: both get overwritten in place. -/
def cW2 : Chunk :=
  { text := "Hello world"
    metadata := [("chunk_index", Val.nat 0), ("chunk_total", Val.nat 1)] }

/-- Witness for C10: caller-supplied `chunk_index = 99`, `chunk_total = 77`
are overwritten with the positional values. -/
theorem chunk_text_reserved_keys_witness :
    dictGet cW2.metadata "chunk_index" = some (Val.nat 0) ∧
    dictGet cW2.metadata "chunk_total" = some (Val.nat 1) := by
  have h := chunk_text_reserved_keys tcW "Hello world"
    [("chunk_index", Val.nat 99), ("chunk_total", Val.nat 77)] 0 cW2 (by decide)
  exact ⟨h.1, h.2⟩

/-- C7: for every chunker configuration, any non-blank text no longer than
`chunk_size` yields exactly one chunk, holding the whole trimmed text with
`chunk_index = 0` and `chunk_total = 1`. -/
theorem chunk_text_single_chunk (ocs oco : Option Nat) (text : String)
    (md : Option Metadata) (hblank : pyStrip text ≠ "")
    (hlen : text.length ≤ (mkTextChunker ocs oco).chunk_size) :
    (mkTextChunker ocs oco).chunk_text text md =
      [{ text := pyStrip text
         metadata := dictInsert (dictInsert (md.getD []) "chunk_index" (Val.nat 0))
           "chunk_total" (Val.nat 1) }] ∧
    ∀ c ∈ (mkTextChunker ocs oco).chunk_text text md,
      c.text = pyStrip text ∧
      dictGet c.metadata "chunk_index" = some (Val.nat 0) ∧
      dictGet c.metadata "chunk_total" = some (Val.nat 1) := by
  have hsplit : (mkTextChunker ocs oco).text_splitter text = [pyStrip text] := by
    show splitText (mkTextChunker ocs oco).chunk_size
      (mkTextChunker ocs oco).chunk_overlap text = [pyStrip text]
    unfold splitText
    rw [if_pos hlen, if_neg hblank]
  have hb := blankText_eq_false text hblank
  have hmain : (mkTextChunker ocs oco).chunk_text text md =
      [{ text := pyStrip text
         metadata := dictInsert (dictInsert (md.getD []) "chunk_index" (Val.nat 0))
           "chunk_total" (Val.nat 1) }] := by
    rw [chunk_text_eq, hb, if_neg Bool.false_ne_true, hsplit]
    rfl
  refine ⟨hmain, ?_⟩
  intro c hcmem
  rw [hmain] at hcmem
  simp only [List.mem_singleton] at hcmem
  subst hcmem
  refine ⟨rfl, ?_, ?_⟩
  · rw [dictGet_insert_ne _ _ _ _ (by decide), dictGet_insert_self]
  · rw [dictGet_insert_self]

/-- Witness for C7 on the spec's own example `"Hello world"` with
`chunk_size = 1000`. -/
theorem chunk_text_single_chunk_witness :
    (mkTextChunker (some 1000) (some 200)).chunk_text "Hello world" none =
      [{ text := "Hello world"
         metadata := [("chunk_index", Val.nat 0), ("chunk_total", Val.nat 1)] }] := by
  have h := chunk_text_single_chunk (some 1000) (some 200) "Hello world" none
    (by decide) (by decide)
  rw [h.1]
  rfl

/-! ## Claim theorems for the LLM handler -/

theorem generate_answer_ok (llm : String → String → Except String String)
    (query : String) (chunks : List SearchResult) (ans : String)
    (hne : chunks ≠ [])
    (hok : llm (systemPrompt (_format_context chunks)) ("Question: " ++ query) =
      Except.ok ans) :
    generate_answer llm query chunks =
      { answer := ans
        sources := _format_sources chunks
        confidence := _calculate_confidence (avgSimilarity chunks) } := by
  unfold generate_answer
  rw [if_neg (by simp [hne]), hok]

/-- C1: with no retrieved chunks, `generate_answer` returns the fixed
no-relevant-documents reply with confidence `0.0`, and the result does not
depend on the language model at all; with retrieved chunks and a successful
model call, the confidence is the threshold function of the arithmetic mean
of the chunks' similarity scores: below `0.5` it is `0.9`, in `[0.5, 1)` it
is `0.7`, in `[1, 1.5)` it is `0.5`, and at `1.5` or above it is `0.3`. -/
theorem generate_answer_confidence (llm : String → String → Except String String)
    (query : String) :
    (∀ llm', generate_answer llm query [] = generate_answer llm' query []) ∧
    generate_answer llm query [] = noDocsResult ∧
    ∀ (chunks : List SearchResult) (ans : String),
      chunks ≠ [] →
      llm (systemPrompt (_format_context chunks)) ("Question: " ++ query) =
        Except.ok ans →
      ((avgSimilarity chunks < 1/2 →
          (generate_answer llm query chunks).confidence = 9/10) ∧
       (1/2 ≤ avgSimilarity chunks → avgSimilarity chunks < 1 →
          (generate_answer llm query chunks).confidence = 7/10) ∧
       (1 ≤ avgSimilarity chunks → avgSimilarity chunks < 3/2 →
          (generate_answer llm query chunks).confidence = 1/2) ∧
       (3/2 ≤ avgSimilarity chunks →
          (generate_answer llm query chunks).confidence = 3/10)) := by
  refine ⟨fun llm' => rfl, rfl, ?_⟩
  intro chunks ans hne hok
  rw [generate_answer_ok llm query chunks ans hne hok]
  unfold _calculate_confidence
  refine ⟨fun h1 => ?_, fun h1 h2 => ?_, fun h1 h2 => ?_, fun h1 => ?_⟩
  · rw [if_pos h1]
  · rw [if_neg (not_lt.mpr h1), if_pos h2]
  · rw [if_neg (not_lt.mpr (le_trans (by norm_num) h1)),
      if_neg (not_lt.mpr h1), if_pos h2]
  · rw [if_neg (not_lt.mpr (le_trans (by norm_num) h1)),
      if_neg (not_lt.mpr (le_trans (by norm_num) h1)),
      if_neg (not_lt.mpr h1)]

/-- Witness for C1: one chunk at distance `0.3` yields confidence `0.9`
when the model call succeeds. -/
theorem generate_answer_confidence_witness :
    (generate_answer (fun _ _ => Except.ok "a grounded answer") "q"
      [{ text := "t", metadata := [], similarity_score := some (3/10) }]).confidence =
      9/10 := by
  have h := (generate_answer_confidence (fun _ _ => Except.ok "a grounded answer")
    "q").2.2 [{ text := "t", metadata := [], similarity_score := some (3/10) }]
    "a grounded answer" (by simp) rfl
  exact h.1 (by norm_num [avgSimilarity])

/-- C8: `_format_sources` preserves length, and the record at position `i`
takes `filename` from the chunk's metadata defaulting to `"Unknown"`,
`chunk_index` defaulting to `0`, a preview that is the plain first 200
characters with `"..."` appended exactly when the text is longer than 200
characters, and the chunk's stored similarity score unchanged. -/
theorem format_sources_spec (chunks : List SearchResult) (i : Nat) (c : SearchResult)
    (hc : chunks[i]? = some c) :
    (_format_sources chunks).length = chunks.length ∧
    (_format_sources chunks)[i]? = some
      { filename := (dictGet c.metadata "filename").getD (Val.str "Unknown")
        chunk_index := (dictGet c.metadata "chunk_index").getD (Val.nat 0)
        text_preview := if c.text.length > 200 then c.text.take 200 ++ "..." else c.text
        similarity_score := c.similarity_score.getD 0 } ∧
    (c.text.length > 200 →
      ((_format_sources chunks)[i]?.map Source.text_preview) =
        some (c.text.take 200 ++ "...")) ∧
    (c.text.length ≤ 200 →
      ((_format_sources chunks)[i]?.map Source.text_preview) = some c.text) := by
  have hmap : (_format_sources chunks)[i]? = some
      { filename := (dictGet c.metadata "filename").getD (Val.str "Unknown")
        chunk_index := (dictGet c.metadata "chunk_index").getD (Val.nat 0)
        text_preview := if c.text.length > 200 then c.text.take 200 ++ "..." else c.text
        similarity_score := c.similarity_score.getD 0 } := by
    unfold _format_sources
    rw [List.getElem?_map, hc, Option.map_some']
  refine ⟨by unfold _format_sources; rw [List.length_map], hmap, ?_, ?_⟩
  · intro hlong
    rw [hmap, Option.map_some']
    simp only [if_pos hlong]
  · intro hshort
    rw [hmap, Option.map_some']
    simp only [if_neg (not_lt.mpr hshort)]

/-- Sample search result for the C8 witness. -/
def srW : SearchResult :=
  { text := "short text"
    metadata := [("filename", Val.str "doc.txt"), ("chunk_index", Val.nat 2)]
    similarity_score := some (1/4) }

/-- Witness for C8 on a concrete one-element result list with short text. -/
theorem format_sources_spec_witness :
    (_format_sources [srW]).length = 1 ∧
    ((_format_sources [srW])[0]?.map Source.text_preview) = some "short text" := by
  have h := format_sources_spec [srW] 0 srW rfl
  exact ⟨h.1, h.2.2.2 (by decide)⟩

/-! ## Claim theorems for the vector store manager -/

/-- C2: searching through a manager whose store holds no records — whether
the store was never created or holds an empty index — returns the empty
list for every query and every `top_k`, with no error. -/
theorem search_similar_documents_empty (m : VectorStoreManager) (query : String)
    (top_k : Option Nat) (h : get_store_size m = 0) :
    search_similar_documents m query top_k = [] := by
  unfold search_similar_documents
  cases hm : m.vector_store with
  | none => rfl
  | some s =>
    unfold get_store_size at h
    rw [hm] at h
    have hs : s.entries = [] := List.length_eq_zero.mp h
    simp [similarity_search_with_score, hs, sortByScore]

/-- Witness for C2 on a manager holding a created-but-empty index. -/
theorem search_similar_documents_empty_witness :
    search_similar_documents
      { embeddings := fun _ => [1, 0]
        vector_store := some ⟨[]⟩
        store_path := Config.VECTOR_STORE_PATH } "any query" none = [] :=
  search_similar_documents_empty _ "any query" none rfl

/-- First component of the `add_documents_to_store` result (the returned
count), `none` when the call raised. -/
def resultCount (r : Except String (Nat × VectorStoreManager)) : Option Nat :=
  match r with
  | .ok (n, _) => some n
  | .error _ => none

/-- Store size after the `add_documents_to_store` result, `none` when the
call raised. -/
def resultSize (r : Except String (Nat × VectorStoreManager)) : Option Nat :=
  match r with
  | .ok (_, m) => some (get_store_size m)
  | .error _ => none

/-- C5: a fresh manager reports size `0`; adding `N` chunks to a manager
with no store succeeds, reports `N` added, and leaves the store at size
`N`; adding an empty chunk list returns `0` and the unchanged manager. -/
theorem get_store_size_spec :
    (∀ emb, get_store_size (initVectorStoreManager emb) = 0) ∧
    (∀ (m : VectorStoreManager) (chunks : List Chunk), m.vector_store = none →
      resultCount (add_documents_to_store m chunks) = some chunks.length ∧
      resultSize (add_documents_to_store m chunks) = some chunks.length) ∧
    (∀ m : VectorStoreManager, add_documents_to_store m [] = Except.ok (0, m)) := by
  refine ⟨fun emb => rfl, ?_, fun m => rfl⟩
  intro m chunks hm
  unfold add_documents_to_store
  cases chunks with
  | nil => simp [resultCount, resultSize, get_store_size, hm]
  | cons c cs =>
    rw [if_neg (by simp)]
    rw [hm]
    unfold create_vector_store
    rw [if_neg (by simp)]
    simp [resultCount, resultSize, get_store_size, FAISSStore.ntotal]

/-- Witness for C5: two chunks into a fresh manager give count and size 2;
the empty insert is a no-op. -/
theorem get_store_size_spec_witness :
    get_store_size (initVectorStoreManager (fun _ => [1])) = 0 ∧
    resultCount (add_documents_to_store (initVectorStoreManager (fun _ => [1]))
      [⟨"a", []⟩, ⟨"b", []⟩]) = some 2 ∧
    resultSize (add_documents_to_store (initVectorStoreManager (fun _ => [1]))
      [⟨"a", []⟩, ⟨"b", []⟩]) = some 2 ∧
    add_documents_to_store (initVectorStoreManager (fun _ => [1])) [] =
      Except.ok (0, initVectorStoreManager (fun _ => [1])) := by
  have h := get_store_size_spec.2.1 (initVectorStoreManager (fun _ => [1]))
    [⟨"a", []⟩, ⟨"b", []⟩] rfl
  exact ⟨get_store_size_spec.1 _, h.1, h.2,
    get_store_size_spec.2.2 (initVectorStoreManager (fun _ => [1]))⟩

/-- Filesystem in which every path holds an unreadable snapshot. -/
def fsCorruptW : String → Snapshot := fun _ => Snapshot.corrupt "invalid pickle data"

/-- A freshly initialized manager over some embedding capability. -/
def mgrW : VectorStoreManager := initVectorStoreManager (fun _ => [1])

/-- C6 counterexample: on a corrupt existing snapshot, `load_vector_store`
does not fail with a `PersistenceError` — the exception is caught and the
call returns `False` normally, exactly as in the missing-snapshot case, so
the code does not match the spec's load contract at this input. -/
theorem load_vector_store_corrupt_counterexample :
    load_vector_store fsCorruptW mgrW "faiss_index" = (false, mgrW) ∧
    load_contract fsCorruptW mgrW "faiss_index" =
      Except.error "PersistenceError" ∧
    ¬ loadMatchesContract fsCorruptW mgrW "faiss_index" := by
  refine ⟨rfl, rfl, ?_⟩
  intro h
  exact Except.noConfusion h

/-- C6 amended: `load_vector_store` returns `False` (raising nothing) when
no snapshot exists; for a corrupt or unreadable existing snapshot it also
returns `False` (the exception is caught, not surfaced as a
`PersistenceError`) leaving the store unchanged, so at startup — when no
store has been loaded — a failed load leaves the index empty; a good
snapshot is installed with result `True`. -/
theorem load_vector_store_spec (fs : String → Snapshot) (m : VectorStoreManager)
    (filename : String) :
    (fs (m.store_path ++ "/" ++ filename) = Snapshot.missing →
      load_vector_store fs m filename = (false, m)) ∧
    (∀ msg, fs (m.store_path ++ "/" ++ filename) = Snapshot.corrupt msg →
      load_vector_store fs m filename = (false, m)) ∧
    (m.vector_store = none → (load_vector_store fs m filename).1 = false →
      get_store_size (load_vector_store fs m filename).2 = 0) ∧
    (∀ s, fs (m.store_path ++ "/" ++ filename) = Snapshot.stored s →
      load_vector_store fs m filename =
        (true, { m with vector_store := some s })) := by
  unfold load_vector_store
  cases hfs : fs (m.store_path ++ "/" ++ filename) with
  | missing =>
    exact ⟨fun _ => rfl, fun msg hmsg => Snapshot.noConfusion hmsg,
      fun hm _ => by simp [get_store_size, hm],
      fun s hs => Snapshot.noConfusion hs⟩
  | corrupt msg =>
    exact ⟨fun hmiss => Snapshot.noConfusion hmiss, fun msg2 hm2 => rfl,
      fun hm _ => by simp [get_store_size, hm],
      fun s hs => Snapshot.noConfusion hs⟩
  | stored s =>
    refine ⟨fun hmiss => Snapshot.noConfusion hmiss,
      fun msg hmsg => Snapshot.noConfusion hmsg,
      fun hm hfalse => ?_, fun s2 hs2 => ?_⟩
    · exact absurd hfalse (by simp)
    · cases hs2
      rfl

/-- Witness for C6 (amended) on a missing snapshot over a fresh manager:
returns `False` and the index stays empty. -/
theorem load_vector_store_spec_witness :
    load_vector_store (fun _ => Snapshot.missing) mgrW "faiss_index" = (false, mgrW) ∧
    get_store_size (load_vector_store (fun _ => Snapshot.missing) mgrW
      "faiss_index").2 = 0 := by
  have h := load_vector_store_spec (fun _ => Snapshot.missing) mgrW "faiss_index"
  refine ⟨h.1 rfl, h.2.2.1 rfl ?_⟩
  rw [h.1 rfl]

end DocuQuery
